import Mathlib

/-!
Shallow embedding of the interactive video-downloader wrapper (src/app.js):
URL validation, download retry, FFmpeg provisioning, archive installation,
option-to-argument compilation, folder history, and exit codes.
-/

namespace YdJs

/-- Predicate `leadMatch pat s`: the character list `pat` starts `s`
(embeds the anchored part of the regex test `/^https?:\/\//`). -/
def leadMatch : List Char → List Char → Bool
  | [], _ => true
  | _ :: _, [] => false
  | a :: as, b :: bs => a == b && leadMatch as bs

/-- Predicate `subMatch pat s`: the character list `pat` occurs contiguously in `s`
(embeds an unanchored regex test such as `/youtube\.com/`). -/
def subMatch (pat : List Char) : List Char → Bool
  | [] => leadMatch pat []
  | c :: rest => leadMatch pat (c :: rest) || subMatch pat rest

/-- Predicate `hasSub s pat`: string `pat` occurs as a substring of `s`. -/
def hasSub (s pat : String) : Bool := subMatch pat.data s.data

/-- The first pattern of `testValidUrl` (src/app.js line 372): `/^https?:\/\//`. -/
def matchesGenericHttp (url : String) : Bool :=
  leadMatch "http://".data url.data || leadMatch "https://".data url.data

/-- The remaining patterns of `testValidUrl` (src/app.js lines 373-379): the fixed
set of known video/social domains, each an unanchored substring test. -/
def matchesKnownDomain (url : String) : Bool :=
  hasSub url "youtube.com" || hasSub url "youtu.be" || hasSub url "vimeo.com" ||
  hasSub url "twitter.com" || hasSub url "tiktok.com" || hasSub url "instagram.com" ||
  hasSub url "facebook.com" || hasSub url "twitch.tv"

/-- Whether `s` consists only of whitespace (so that JavaScript trimming of `s` yields the empty string;
the empty string is included, covering the falsiness test `!url`). -/
def isBlank (s : String) : Bool := s.data.all Char.isWhitespace

/-- Embedding of `testValidUrl` (src/app.js lines 369-388).  `confirm` is the
answer the user would give to the `¿Continuar de todos modos?` prompt; the code
only asks it when no pattern matched a non-blank URL. -/
def testValidUrl (url : String) (confirm : Bool) : Bool :=
  if url = "" || isBlank url then false
  else if matchesGenericHttp url || matchesKnownDomain url then true
  else confirm

/-- One round of the URL-collection loop in `startDownloader`
(src/app.js lines 447-455): `some url` means the loop accepts the URL and the
session advances to mode selection; `none` means it re-prompts. -/
def urlStep (answer : String) (confirm : Bool) : Option String :=
  if testValidUrl answer confirm then some answer else none

theorem isBlank_false_ne (url : String) (h : isBlank url = false) : url ≠ "" := by
  intro he
  exact absurd (he ▸ h) (by decide)

/-- C1 counterexample: the URL `https://example.org` matches only the generic
`http(s)://` pattern, none of the known video/social domains, yet `testValidUrl`
accepts it even when the would-be confirmation answer is `false` — the code
never asks for confirmation once any pattern (including the generic one)
matches, contradicting both directions the claim places on confirmation. -/
theorem testValidUrl_generic_no_confirmation :
    testValidUrl "https://example.org" false = true ∧
      matchesKnownDomain "https://example.org" = false := by
  constructor
  · decide
  · decide

/-- C1 (amended): the URL-collection loop accepts an entered URL (advancing to
mode selection) iff it is not blank and either matches the generic `http(s)://`
prefix, or matches one of the known video/social domains, or the user confirms
the "continue anyway" prompt; otherwise it re-prompts for the URL. -/
theorem urlStep_accepts_iff (url : String) (c : Bool) :
    (urlStep url c = some url ↔
      isBlank url = false ∧
        (matchesGenericHttp url = true ∨ matchesKnownDomain url = true ∨ c = true)) ∧
    (urlStep url c = none ↔
      ¬ (isBlank url = false ∧
        (matchesGenericHttp url = true ∨ matchesKnownDomain url = true ∨ c = true))) := by
  unfold urlStep testValidUrl
  cases hb : isBlank url with
  | false =>
    have hne : url ≠ "" := isBlank_false_ne url hb
    cases hg : matchesGenericHttp url <;> cases hk : matchesKnownDomain url <;>
      cases c <;> simp [hne]
  | true =>
    simp

/-- Result of a `safeDownload` run: whether it returned `true`, how many GET
attempts it made, and the list of backoff waits (in milliseconds) it performed
between attempts. -/
structure FetchTrace where
  result : Bool
  attempts : Nat
  waits : List Nat
deriving DecidableEq, Repr

/-- Recursion of the `for` loop of `safeDownload` (src/app.js lines 170-191):
`i` is the current 1-based attempt index, `remaining` the number of loop
iterations left, and `outcome i` tells whether attempt `i` succeeds (the
stream finishes and the output file exists) or throws.  On a throw with
`i === retries` the function returns `false` at once; otherwise it waits
2000 ms and retries. -/
def sdLoop (outcome : Nat → Bool) : Nat → Nat → FetchTrace
  | _, 0 => ⟨false, 0, []⟩
  | i, r + 1 =>
    if outcome i then ⟨true, 1, []⟩
    else if r = 0 then ⟨false, 1, []⟩
    else
      let t := sdLoop outcome (i + 1) r
      ⟨t.result, t.attempts + 1, 2000 :: t.waits⟩

/-- Embedding of `safeDownload` (src/app.js lines 169-193); `retries` is the
`retries` parameter (default 3). -/
def safeDownload (outcome : Nat → Bool) (retries : Nat) : FetchTrace :=
  sdLoop outcome 1 retries

theorem sdLoop_spec (outcome : Nat → Bool) :
    ∀ r i, (sdLoop outcome i r).attempts ≤ r ∧
      ((sdLoop outcome i r).result = false → (sdLoop outcome i r).attempts = r) ∧
      (∀ d ∈ (sdLoop outcome i r).waits, d = 2000) ∧
      (sdLoop outcome i r).waits.length = (sdLoop outcome i r).attempts - 1 ∧
      (1 ≤ r → 1 ≤ (sdLoop outcome i r).attempts) := by
  intro r
  induction r with
  | zero => intro i; simp [sdLoop]
  | succ r ih =>
    intro i
    unfold sdLoop
    cases houtcome : outcome i with
    | true => simp
    | false =>
      cases hr : r with
      | zero => simp
      | succ r' =>
        have h := ih (i + 1)
        rw [hr] at h
        have hpos := h.2.2.2.2 (by omega)
        simp only [Bool.false_eq_true, reduceIte, if_neg (by simp : ¬ (r' + 1 = 0))]
        refine ⟨by omega, fun hres => ?_, ?_, by simp; omega, by omega⟩
        · have := h.2.1 hres
          omega
        · intro d hd
          rcases List.mem_cons.mp hd with h1 | h1
          · exact h1
          · exact h.2.2.1 d h1

/-- C5: for every `retries ≥ 1`, `safeDownload` makes at most `retries` GET
attempts, returns `false` only once all `retries` attempts are exhausted, and
every backoff wait between consecutive failed attempts is exactly 2000 ms
(one wait per failed-attempt boundary). -/
theorem safeDownload_retry_spec (outcome : Nat → Bool) (retries : Nat)
    (_hretries : 1 ≤ retries) :
    (safeDownload outcome retries).attempts ≤ retries ∧
      ((safeDownload outcome retries).result = false →
        (safeDownload outcome retries).attempts = retries) ∧
      (∀ d ∈ (safeDownload outcome retries).waits, d = 2000) ∧
      (safeDownload outcome retries).waits.length =
        (safeDownload outcome retries).attempts - 1 := by
  have h := sdLoop_spec outcome retries 1
  exact ⟨h.1, h.2.1, h.2.2.1, h.2.2.2.1⟩

/-- C5 witness: a run with three attempts that all fail makes exactly 3
attempts, returns `false`, and waits 2000 ms twice. -/
theorem safeDownload_retry_spec_witness :
    (safeDownload (fun _ => false) 3).attempts ≤ 3 ∧
      ((safeDownload (fun _ => false) 3).result = false →
        (safeDownload (fun _ => false) 3).attempts = 3) ∧
      (∀ d ∈ (safeDownload (fun _ => false) 3).waits, d = 2000) ∧
      (safeDownload (fun _ => false) 3).waits.length =
        (safeDownload (fun _ => false) 3).attempts - 1 :=
  safeDownload_retry_spec (fun _ => false) 3 (by decide)

/-- The fixed list `ffmpegFiles`/`requiredFiles` of required executable names
(src/app.js lines 210 and 243). -/
def requiredFiles : List String := ["ffmpeg.exe", "ffprobe.exe", "ffplay.exe"]

/-- Existence of the two temporary artifacts of `installFFmpeg`: the scratch
extraction directory `ffmpeg_temp` and the downloaded archive `ffmpeg.zip`. -/
structure TempState where
  tempDirExists : Bool
  zipExists : Bool
deriving DecidableEq, Repr

/-- Environment of one `installFFmpeg` run: the outcomes of the external
operations it performs.  `zipLeftOnFailure` is whether, after `safeDownload`
returns `false`, the archive file exists on disk (a failed attempt may have
created and partially written it, or a stale file may predate the run).
`bundleFiles` is the set of file names present under the matched `bin`
directory of the extracted archive. -/
structure InstallEnv where
  downloadOk : Bool
  zipLeftOnFailure : Bool
  extractOk : Bool
  markerFound : Bool
  bundleFiles : List String
deriving DecidableEq, Repr

/-- Number of required files found under the marker directory and copied into
`ffmpegBinDir` (the `copiedFiles` counter, src/app.js lines 244-254). -/
def copiedCount (bundleFiles : List String) : Nat :=
  (requiredFiles.filter (fun f => bundleFiles.contains f)).length

/-- Embedding of `installFFmpeg` (src/app.js lines 216-274).  Returns the
function's boolean result and the final existence state of the temporary
artifacts.  The control flow mirrors the source: a failed `safeDownload`
returns `false` *before* the `try`/`finally` block, so no cleanup runs on that
path; every path inside the `try` (extraction error caught, `bin` marker
directory not found, zero or more files copied) runs the `finally` block,
which removes the scratch directory and the archive if they exist. -/
def installFFmpeg (env : InstallEnv) (s : TempState) : Bool × TempState :=
  if !env.downloadOk then
    (false, ⟨s.tempDirExists, env.zipLeftOnFailure⟩)
  else
    -- download succeeded: the archive exists; the stale scratch directory is
    -- removed and recreated; then the try/finally block runs.
    if !env.extractOk then (false, ⟨false, false⟩)
    else if !env.markerFound then (false, ⟨false, false⟩)
    else (if 0 < copiedCount env.bundleFiles then true else false, ⟨false, false⟩)

/-- C3 counterexample: when the download fails (e.g. the final attempt's write
stream errors after creating the file), `installFFmpeg` returns before the
`try`/`finally` block and the downloaded archive file is left on disk. -/
theorem installFFmpeg_leaks_zip_on_download_failure :
    (installFFmpeg ⟨false, true, true, true, []⟩ ⟨false, false⟩).2.zipExists = true := by
  decide

/-- C3 (amended): for every run of `installFFmpeg` whose archive download
succeeds — extraction failure, marker directory not found, zero files copied,
or success — after it returns, neither the scratch extraction directory nor
the downloaded archive file exists; when the download fails, the function
returns before the cleanup block, so a partially written or stale archive
file (and a stale scratch directory) may remain. -/
theorem installFFmpeg_cleanup (env : InstallEnv) (s : TempState)
    (hdl : env.downloadOk = true) :
    (installFFmpeg env s).2.tempDirExists = false ∧
      (installFFmpeg env s).2.zipExists = false := by
  unfold installFFmpeg
  rw [hdl]
  cases env.extractOk <;> cases env.markerFound <;> simp

/-- C3 witness: a successful-download run with a marker directory missing
cleans up both artifacts. -/
theorem installFFmpeg_cleanup_witness :
    (installFFmpeg ⟨true, false, true, false, []⟩ ⟨true, true⟩).2.tempDirExists = false ∧
      (installFFmpeg ⟨true, false, true, false, []⟩ ⟨true, true⟩).2.zipExists = false :=
  installFFmpeg_cleanup ⟨true, false, true, false, []⟩ ⟨true, true⟩ rfl

/-- C4: once `installFFmpeg` reaches the copy step (download, extraction and
marker search all succeeded), it returns `true` iff the number of required
file names found under the marker directory and copied into the target
directory is positive; with none of the required files in the bundle it
returns `false`. -/
theorem installFFmpeg_success_iff_copied (env : InstallEnv) (s : TempState)
    (hdl : env.downloadOk = true) (hex : env.extractOk = true)
    (hmk : env.markerFound = true) :
    ((installFFmpeg env s).1 = true ↔ 0 < copiedCount env.bundleFiles) := by
  unfold installFFmpeg
  rw [hdl, hex, hmk]
  simp only [Bool.not_true, Bool.false_eq_true, reduceIte]
  split <;> simp_all

/-- C4 witness: a bundle containing only `ffmpeg.exe` yields `true` (one file
copied); the theorem applied at that input. -/
theorem installFFmpeg_success_iff_copied_witness :
    ((installFFmpeg ⟨true, false, true, true, ["ffmpeg.exe"]⟩ ⟨false, false⟩).1 = true ↔
      0 < copiedCount ["ffmpeg.exe"]) :=
  installFFmpeg_success_iff_copied ⟨true, false, true, true, ["ffmpeg.exe"]⟩
    ⟨false, false⟩ rfl rfl rfl

/-- Embedding of `testFFmpegComplete` (src/app.js lines 209-214): the required
files absent from the install directory.  `ex f` is `fs.existsSync` of file
`f` inside `ffmpegBinDir`. -/
def testFFmpegComplete (ex : String → Bool) : List String :=
  requiredFiles.filter (fun f => !(ex f))

/-- What the FFmpeg branch of `startDownloader` (src/app.js lines 412-430)
decides to do before any user prompt. -/
inductive ProvisionAction where
  | complete : ProvisionAction
  | offerRepair : List String → ProvisionAction
  | offerInstall : ProvisionAction
deriving DecidableEq, Repr

/-- The decision of src/app.js lines 412-430: if `ffmpegExePath` exists the
missing-file list decides between "complete" and "repair?" (reporting exactly
`testFFmpegComplete`); if `ffmpeg.exe` itself is absent the tool counts as
missing and the user is offered a fresh install instead. -/
def provisionDecision (ex : String → Bool) : ProvisionAction :=
  if ex "ffmpeg.exe" then
    if (testFFmpegComplete ex).length = 0 then .complete
    else .offerRepair (testFFmpegComplete ex)
  else .offerInstall

/-- The `ffmpegAvailable` flag after the FFmpeg branch: `confirm` is the
user's answer to the repair/install prompt, `installResult` the value
`installFFmpeg` would return.  `ffmpegAvailable` starts `false`
(src/app.js line 24) and is only set on the paths shown. -/
def provisionOutcome (ex : String → Bool) (confirm installResult : Bool) : Bool :=
  match provisionDecision ex with
  | .complete => true
  | .offerRepair _ => if confirm then installResult else false
  | .offerInstall => if confirm then installResult else false

/-- C2 counterexample: the installation state in which exactly one required
file — `ffmpeg.exe` itself — is absent.  The provisioner does not report it as
missing and does not offer repair: because the presence probe is
`fs.existsSync(ffmpegExePath)`, it classifies the tool as missing and offers a
fresh install instead. -/
theorem provision_one_missing_not_repair :
    (testFFmpegComplete (fun g => !(g == "ffmpeg.exe"))).length = 1 ∧
      provisionDecision (fun g => !(g == "ffmpeg.exe")) = .offerInstall := by
  decide

/-- C2 (amended): for every installation state in which exactly one required
file is absent and that file is not the presence-probe file `ffmpeg.exe`, the
provisioner reports exactly that one file as missing and offers repair; when
the user accepts, advanced features are enabled iff the repair
(`installFFmpeg`) succeeds. -/
theorem provision_repair_one_missing (ex : String → Bool) (f : String)
    (hf : f ∈ requiredFiles) (hff : f ≠ "ffmpeg.exe") (habs : ex f = false)
    (hrest : ∀ g ∈ requiredFiles, g ≠ f → ex g = true) :
    provisionDecision ex = .offerRepair [f] ∧
      ∀ installResult, provisionOutcome ex true installResult = installResult := by
  have hffm : ex "ffmpeg.exe" = true := by
    refine hrest "ffmpeg.exe" (by decide) ?_
    intro h
    exact hff h.symm
  have hcompl : testFFmpegComplete ex = [f] := by
    have h1 : ex "ffprobe.exe" = true ∨ f = "ffprobe.exe" := by
      by_cases h : f = "ffprobe.exe"
      · exact Or.inr h
      · exact Or.inl (hrest "ffprobe.exe" (by decide) fun he => h he.symm)
    have h2 : ex "ffplay.exe" = true ∨ f = "ffplay.exe" := by
      by_cases h : f = "ffplay.exe"
      · exact Or.inr h
      · exact Or.inl (hrest "ffplay.exe" (by decide) fun he => h he.symm)
    have hcases : f = "ffprobe.exe" ∨ f = "ffplay.exe" := by
      simp only [requiredFiles, List.mem_cons, List.not_mem_nil, or_false] at hf
      rcases hf with h | h | h
      · exact absurd h hff
      · exact Or.inl h
      · exact Or.inr h
    rcases hcases with h | h
    · subst h
      rcases h2 with h2 | h2
      · simp [testFFmpegComplete, requiredFiles, hffm, habs, h2]
      · exact absurd h2 (by decide)
    · subst h
      rcases h1 with h1 | h1
      · simp [testFFmpegComplete, requiredFiles, hffm, habs, h1]
      · exact absurd h1 (by decide)
  constructor
  · rw [provisionDecision, if_pos hffm, hcompl]
    simp
  · intro installResult
    rw [provisionOutcome, provisionDecision, if_pos hffm, hcompl]
    simp

/-- C2 witness: only `ffprobe.exe` absent; the provisioner offers repair
reporting exactly that file, and enablement equals the repair result. -/
theorem provision_repair_one_missing_witness :
    provisionDecision (fun g => !(g == "ffprobe.exe")) = .offerRepair ["ffprobe.exe"] ∧
      ∀ installResult,
        provisionOutcome (fun g => !(g == "ffprobe.exe")) true installResult =
          installResult :=
  provision_repair_one_missing (fun g => !(g == "ffprobe.exe")) "ffprobe.exe"
    (by decide) (by decide) (by decide) (by decide)

/-- JavaScript `String.prototype.trim`: drop whitespace from both ends. -/
def jsTrim (s : String) : String :=
  ⟨((s.data.dropWhile Char.isWhitespace).reverse.dropWhile Char.isWhitespace).reverse⟩

/-- Embedding of `addToHistory` (src/app.js lines 57-72).  `res` stands for
`path.resolve`; `history` is the list `readHistory()` would return.  The
result is `none` when the function returns before touching the history file
(empty path or a path trimming to `.`), and `some h` when it writes `h`:
the resolved path is moved to the front (`indexOf`/`splice` removes its first
occurrence, `unshift` prepends) and the list is truncated to 10 entries. -/
def addToHistory (res : String → String) (newPath : String)
    (history : List String) : Option (List String) :=
  if newPath = "" || jsTrim newPath == "." then none
  else
    let rp := res newPath
    some ((rp :: history.erase rp).take 10)

/-- C6: `addToHistory` preserves the history invariants.  `P` is any property
guaranteed by `path.resolve` outputs (e.g. "is an absolute normalized path"):
if every entry of the old history satisfies `P`, the old history has no
duplicates and at most 10 entries, then any written history has at most 10
entries, no duplicates, all entries satisfying `P`, the new path at index 0,
and — when the resolved path was already present — the same entries as before
(a permutation, hence an unchanged set). -/
theorem addToHistory_invariants (res : String → String) (P : String → Bool)
    (newPath : String) (history h' : List String)
    (hres : ∀ s, P (res s) = true) (hnd : history.Nodup)
    (hP : ∀ e ∈ history, P e = true) (hlen : history.length ≤ 10)
    (heq : addToHistory res newPath history = some h') :
    h'.length ≤ 10 ∧ h'.Nodup ∧ (∀ e ∈ h', P e = true) ∧
      h'.head? = some (res newPath) ∧
      (res newPath ∈ history → List.Perm h' history) := by
  unfold addToHistory at heq
  by_cases hguard : newPath = "" || jsTrim newPath == "."
  · rw [if_pos hguard] at heq
    exact absurd heq (by simp)
  · rw [if_neg hguard] at heq
    have hh : h' = ((res newPath :: history.erase (res newPath)).take 10) := by
      exact (Option.some.injEq _ _ ▸ heq.symm : _)
    subst hh
    refine ⟨?_, ?_, ?_, ?_, ?_⟩
    · exact List.length_take_le 10 _
    · refine List.Nodup.sublist (List.take_sublist 10 _) ?_
      refine List.nodup_cons.mpr ⟨?_, hnd.erase _⟩
      exact hnd.not_mem_erase
    · intro e he
      have he2 : e ∈ res newPath :: history.erase (res newPath) :=
        List.take_subset 10 _ he
      rcases List.mem_cons.mp he2 with h1 | h1
      · exact h1 ▸ hres newPath
      · exact hP e (List.erase_subset _ _ h1)
    · rw [show (10 : Nat) = 9 + 1 from rfl, List.take_succ_cons]
      rfl
    · intro hmem
      have hperm : List.Perm history (res newPath :: history.erase (res newPath)) :=
        List.perm_cons_erase hmem
      have hlen2 : (res newPath :: history.erase (res newPath)).length ≤ 10 := by
        rw [← hperm.length_eq]
        exact hlen
      rw [List.take_of_length_le hlen2]
      exact hperm.symm

/-- C6 witness: re-adding `"/b"` to the history `["/a", "/b"]` (with
`path.resolve` the identity on these already-absolute paths) moves it to the
front, keeps length ≤ 10, no duplicates, and permutes the old entries. -/
theorem addToHistory_invariants_witness :
    (["/b", "/a"] : List String).length ≤ 10 ∧ (["/b", "/a"] : List String).Nodup ∧
      (∀ e ∈ (["/b", "/a"] : List String), (fun _ => true) e = true) ∧
      (["/b", "/a"] : List String).head? = some ((fun s => s) "/b") ∧
      ((fun s => s) "/b" ∈ (["/a", "/b"] : List String) →
        List.Perm (["/b", "/a"] : List String) ["/a", "/b"]) :=
  addToHistory_invariants (fun s => s) (fun _ => true) "/b" ["/a", "/b"] ["/b", "/a"]
    (fun _ => rfl) (by decide) (by decide) (by decide) (by decide)

/-- C10: calling `addToHistory` with the empty (falsy) string or with any
string that trims to the literal `.` returns before reading or writing the
history file — the persisted history is untouched. -/
theorem addToHistory_skips_empty_or_dot (res : String → String) (newPath : String)
    (history : List String) (h : newPath = "" ∨ jsTrim newPath = ".") :
    addToHistory res newPath history = none := by
  unfold addToHistory
  rcases h with h | h
  · rw [if_pos (by simp [h])]
  · rw [if_pos (by simp [h])]

/-- C10 witness: the input `" . "` trims to `.` and leaves the history file
unchanged. -/
theorem addToHistory_skips_empty_or_dot_witness :
    addToHistory (fun s => s) " . " ["/a"] = none :=
  addToHistory_skips_empty_or_dot (fun s => s) " . " ["/a"] (Or.inr (by decide))

/-- The constant `ffmpegBinDir = path.join(scriptDirectory, 'ffmpeg', 'bin')`
(src/app.js lines 16-21), with `path.join` modelled by the `/` separator. -/
def ffmpegBinDir (scriptDirectory : String) : String := scriptDirectory ++ "/ffmpeg/bin"

/-- Embedding of `getDownloadArguments` (src/app.js lines 320-367).
`ffmpegAvailable` is the global flag, `binDir` the value of `ffmpegBinDir`,
`option` the menu value (`'1'`..`'5'`), `customFormat` the free-form format the
user would type for option `'5'` (empty string when falsy), and `confirmMeta`
the answer to the `¿Incluir metadatos y miniaturas?` prompt. -/
def getDownloadArguments (ffmpegAvailable : Bool) (binDir : String)
    (option : String) (customFormat : String) (confirmMeta : Bool) : List String :=
  let base := ["--console-title", "--no-part"]
  let base := if ffmpegAvailable then base ++ ["--ffmpeg-location", binDir] else base
  if option = "1" then
    base ++ ["-f", "best[height<=720]/best"] ++
      (if ffmpegAvailable then ["--embed-metadata", "--embed-thumbnail"] else [])
  else if option = "2" then
    base ++ ["-x", "--audio-format", "mp3", "--audio-quality", "0"] ++
      (if ffmpegAvailable then ["--embed-metadata"] else [])
  else if option = "3" then
    base ++ ["-f", "bestvideo[height<=1080]+bestaudio/best[height<=1080]"] ++
      (if ffmpegAvailable then ["--embed-metadata", "--embed-thumbnail"] else [])
  else if option = "4" then
    base ++ ["-f", "bestvideo[height<=720]+bestaudio/best[height<=720]"] ++
      (if ffmpegAvailable then ["--embed-metadata", "--embed-thumbnail"] else [])
  else if option = "5" then
    base ++ (if customFormat = "" then [] else ["-f", customFormat]) ++
      (if ffmpegAvailable && confirmMeta then ["--embed-metadata", "--embed-thumbnail"] else [])
  else base

theorem ffmpegBinDir_ne_embed (sd : String) : ffmpegBinDir sd ≠ "--embed-thumbnail" := by
  intro h
  have hmem : '/' ∈ (ffmpegBinDir sd).data := by
    have hdata : (ffmpegBinDir sd).data = sd.data ++ "/ffmpeg/bin".data := rfl
    rw [hdata]
    exact List.mem_append.mpr (Or.inr (by decide))
  rw [h] at hmem
  exact absurd hmem (by decide)

/-- C7: for mode AudioOnly (option `'2'`) with advanced features enabled, the
compiled argument vector contains the audio-extraction flag `-x`, the format
conversion `--audio-format mp3` at the highest quality `--audio-quality 0`,
and `--embed-metadata`, and never contains `--embed-thumbnail` (for any script
directory, custom-format input and metadata-confirmation answer). -/
theorem getDownloadArguments_audioOnly (sd cf : String) (cm : Bool) :
    "-x" ∈ getDownloadArguments true (ffmpegBinDir sd) "2" cf cm ∧
      "--audio-format" ∈ getDownloadArguments true (ffmpegBinDir sd) "2" cf cm ∧
      "mp3" ∈ getDownloadArguments true (ffmpegBinDir sd) "2" cf cm ∧
      "--audio-quality" ∈ getDownloadArguments true (ffmpegBinDir sd) "2" cf cm ∧
      "0" ∈ getDownloadArguments true (ffmpegBinDir sd) "2" cf cm ∧
      "--embed-metadata" ∈ getDownloadArguments true (ffmpegBinDir sd) "2" cf cm ∧
      "--embed-thumbnail" ∉ getDownloadArguments true (ffmpegBinDir sd) "2" cf cm := by
  have hb : ¬ ("--embed-thumbnail" = ffmpegBinDir sd) :=
    fun h => ffmpegBinDir_ne_embed sd h.symm
  have hargs : getDownloadArguments true (ffmpegBinDir sd) "2" cf cm =
      ["--console-title", "--no-part", "--ffmpeg-location", ffmpegBinDir sd, "-x",
       "--audio-format", "mp3", "--audio-quality", "0", "--embed-metadata"] := rfl
  rw [hargs]
  refine ⟨by simp, by simp, by simp, by simp, by simp, by simp, ?_⟩
  simp [hb]

/-- Embedding of `testFFmpegFunctional` (src/app.js lines 292-300): first
component is the returned boolean, second whether the version probe
(`ffmpeg -version`) was invoked at all.  `probeOk` is whether that probe
would exit zero. -/
def testFFmpegFunctional (ffmpegAvailable probeOk : Bool) : Bool × Bool :=
  if !ffmpegAvailable then (false, false) else (probeOk, true)

/-- The FFmpeg entry of the status banner (src/app.js line 444). -/
def ffmpegStatusLine (functional available : Bool) : String :=
  if functional then "✓ Funcional"
  else if available then "⚠ Parcial"
  else "✗ No disponible"

/-- C9: `testFFmpegFunctional` returns `true` only when `ffmpegAvailable` is
`true`; when advanced features are disabled it returns `false` without
invoking the probe, so the banner can never read `✓ Funcional` while advanced
features are disabled. -/
theorem testFFmpegFunctional_requires_available (avail probe : Bool) :
    ((testFFmpegFunctional avail probe).1 = true → avail = true) ∧
      (avail = false →
        testFFmpegFunctional avail probe = (false, false) ∧
          ffmpegStatusLine (testFFmpegFunctional avail probe).1 avail ≠ "✓ Funcional") := by
  cases avail <;> cases probe <;> simp [testFFmpegFunctional, ffmpegStatusLine]

/-- C9 witness: with advanced features disabled and a probe that would
succeed, the function still returns `false` without probing, and the banner
is not `✓ Funcional`. -/
theorem testFFmpegFunctional_requires_available_witness :
    testFFmpegFunctional false true = (false, false) ∧
      ffmpegStatusLine (testFFmpegFunctional false true).1 false ≠ "✓ Funcional" :=
  (testFFmpegFunctional_requires_available false true).2 rfl

/-- The startup decisions of `startDownloader` that govern the exit code
(src/app.js lines 396-410): connectivity probe result, the user's answer to
continuing offline, whether `yt-dlp.exe` already exists, and whether its
download would succeed. -/
structure StartupEnv where
  internetOk : Bool
  confirmContinueOffline : Bool
  ytdlpPresent : Bool
  ytdlpDownloadOk : Bool
deriving DecidableEq, Repr

/-- The two `process.exit(1)` gates at startup: `some 1` when the process
terminates there, `none` when startup completes and the session loop runs. -/
def startupExit (env : StartupEnv) : Option Nat :=
  if !env.internetOk && !env.confirmContinueOffline then some 1
  else if !env.ytdlpPresent && !env.ytdlpDownloadOk then some 1
  else none

/-- Exit code of a whole `startDownloader` run (src/app.js lines 392-562):
`repeatAnswers` are the successive answers to `¿Deseas hacer otra descarga?`;
the loop ends at the first `false`, after which the function returns and the
process exits with code 0 (`none` models a scripted run whose loop never
ends). -/
def startDownloaderExit (env : StartupEnv) (repeatAnswers : List Bool) : Option Nat :=
  match startupExit env with
  | some c => some c
  | none => if repeatAnswers.contains false then some 0 else none

/-- C8: the process exits with code 1 when connectivity is unverified and the
user declines to continue, and when `yt-dlp.exe` is missing and its download
fails; it exits with code 0 when startup succeeds and the user declines to
run another download job. -/
theorem startDownloader_exit_codes (env : StartupEnv) (answers : List Bool) :
    (env.internetOk = false → env.confirmContinueOffline = false →
      startDownloaderExit env answers = some 1) ∧
      (env.ytdlpPresent = false → env.ytdlpDownloadOk = false →
        startDownloaderExit env answers = some 1) ∧
      ((env.internetOk = true ∨ env.confirmContinueOffline = true) →
        (env.ytdlpPresent = true ∨ env.ytdlpDownloadOk = true) →
        answers.contains false = true →
        startDownloaderExit env answers = some 0) := by
  refine ⟨?_, ?_, ?_⟩
  · intro h1 h2
    simp [startDownloaderExit, startupExit, h1, h2]
  · intro h1 h2
    cases hI : env.internetOk <;> cases hC : env.confirmContinueOffline <;>
      simp [startDownloaderExit, startupExit, h1, h2, hI, hC]
  · rintro (h1 | h1) (h2 | h2) h3 <;>
      have h4 : false ∈ answers := by simpa using h3
    all_goals simp [startDownloaderExit, startupExit, h1, h2, h4]

/-- C8 witness: the three exit situations at concrete inputs. -/
theorem startDownloader_exit_codes_witness :
    startDownloaderExit ⟨false, false, true, true⟩ [] = some 1 ∧
      startDownloaderExit ⟨true, true, false, false⟩ [] = some 1 ∧
      startDownloaderExit ⟨true, true, true, true⟩ [false] = some 0 :=
  ⟨(startDownloader_exit_codes ⟨false, false, true, true⟩ []).1 rfl rfl,
    (startDownloader_exit_codes ⟨true, true, false, false⟩ []).2.1 rfl rfl,
    (startDownloader_exit_codes ⟨true, true, true, true⟩ [false]).2.2
      (Or.inl rfl) (Or.inl rfl) (by decide)⟩

end YdJs
